import Mathlib

/-!
Shallow embedding of the mirgecom example-driver stepping loop and its
checkpoint/health-check coordination logic.

Sources embedded here:
* `examples/generic-parallel-driver.py` — the `main` while-loop (precondition
  check, pre-step callback, timestepper invocation, time/step advance,
  post-step callback);
* `examples/scalar-lump-mpi.py` — `my_pre_step`, `my_graceful_exit` and the
  post-loop finish-tolerance check;
* `examples/pulse.py` — the post-loop `current_t - t_final < 0` check;
* `mirgecom/error.py` — `compare_states`.

Simulation time and field values are modelled as exact rationals; the
simulation state is an opaque type parameter threaded through the loop.
Callback and collective invocations are recorded as an explicit event trace
so that claims about invocation order and counts can be stated.
-/

namespace Mirgecom

/-- Events recording the observable actions of a driver run: the three loop
callbacks of `generic-parallel-driver.py` and the I/O / health actions of
`my_pre_step` in `scalar-lump-mpi.py`. -/
inductive Event (σ : Type) where
  | preStep (step : ℕ) (time : ℚ) (state : σ)
  | stepperCall (state : σ) (t : ℚ) (dt : ℚ)
  | postStep (step : ℕ) (time : ℚ) (state : σ)
  | healthCheck (step : ℕ) (flag : Bool)
  | writeRestart (step : ℕ)
  | writeViz (step : ℕ)
  | statusReport (step : ℕ)
  deriving DecidableEq

/-- The final (step, time, state) triple of a driver loop run, together with
the trace of events the run produced. -/
structure LoopResult (σ : Type) where
  step : ℕ
  t : ℚ
  state : σ
  trace : List (Event σ)
  deriving DecidableEq

/-- A pre-step callback: from (step, time, state) it yields the state and the
step size for this iteration (`prestep_function` in the generic driver). -/
def PreStepFn (σ : Type) : Type := ℕ → ℚ → σ → σ × ℚ

/-- The RHS evaluator: time and state give the time derivative of the state
(external collaborator `rhs_function`). -/
def RhsFn (σ : Type) : Type := ℚ → σ → σ

/-- The timestepper: state, time, step size and RHS evaluator give the next
state (external collaborator `timestepper_function`). -/
def TimestepperFn (σ : Type) : Type := σ → ℚ → ℚ → RhsFn σ → σ

/-- The while-loop of `main` in `examples/generic-parallel-driver.py`
(lines 90-103), written with a fuel argument so that it is structurally
recursive.  Each iteration: `state, dt = prestep_function(step, t, state)`;
`state = timestepper_function(state, t, dt, rhs)`; `t += dt`; `step += 1`;
`poststep_function(step, t, state)` (whose return value is unused by the
driver, so the call is recorded as an event).  `driverLoop` below supplies
fuel `step_max - step`, which the guard `step < step_max` makes sufficient. -/
def driverLoopAux {σ : Type} (t_final : ℚ) (step_max : ℕ)
    (prestep : PreStepFn σ) (timestepper : TimestepperFn σ) (rhs : RhsFn σ) :
    ℕ → ℕ → ℚ → σ → LoopResult σ
  | 0, step, t, state => ⟨step, t, state, []⟩
  | fuel + 1, step, t, state =>
    if t < t_final ∧ step < step_max then
      let p := prestep step t state
      let s2 := timestepper p.1 t p.2 rhs
      let r := driverLoopAux t_final step_max prestep timestepper rhs
        fuel (step + 1) (t + p.2) s2
      ⟨r.step, r.t, r.state,
        Event.preStep step t state :: Event.stepperCall p.1 t p.2 ::
          Event.postStep (step + 1) (t + p.2) s2 :: r.trace⟩
    else ⟨step, t, state, []⟩

/-- The stepping loop of `main` in `examples/generic-parallel-driver.py`:
starting from `(current_step, current_t, current_state)` it iterates while
`current_t < t_final and current_step < step_max`. -/
def driverLoop {σ : Type} (t_final : ℚ) (step_max : ℕ)
    (prestep : PreStepFn σ) (timestepper : TimestepperFn σ) (rhs : RhsFn σ)
    (step : ℕ) (t : ℚ) (state : σ) : LoopResult σ :=
  driverLoopAux t_final step_max prestep timestepper rhs
    (step_max - step) step t state

/-- `main` of `examples/generic-parallel-driver.py` around the loop: the
precondition check at lines 84-85 (`raise ValueError` when
`current_t >= t_final or current_step >= step_max`) followed by the stepping
loop.  The first component is the list of events emitted before the run ends;
on the configuration error nothing has run, so it is empty. -/
def driverMain {σ : Type} (t_final : ℚ) (step_max : ℕ)
    (prestep : PreStepFn σ) (timestepper : TimestepperFn σ) (rhs : RhsFn σ)
    (step : ℕ) (t : ℚ) (state : σ) :
    List (Event σ) × Except String (LoopResult σ) :=
  if t ≥ t_final ∨ step ≥ step_max then
    ([], Except.error "Nothing to do, loop limits already met.")
  else
    let r := driverLoop t_final step_max prestep timestepper rhs step t state
    (r.trace, Except.ok r)

theorem driverLoop_unfold {σ : Type} (t_final : ℚ) (step_max : ℕ)
    (prestep : PreStepFn σ) (timestepper : TimestepperFn σ) (rhs : RhsFn σ)
    (step : ℕ) (t : ℚ) (state : σ) :
    driverLoop t_final step_max prestep timestepper rhs step t state =
      if t < t_final ∧ step < step_max then
        let p := prestep step t state
        let s2 := timestepper p.1 t p.2 rhs
        let r := driverLoop t_final step_max prestep timestepper rhs
          (step + 1) (t + p.2) s2
        ⟨r.step, r.t, r.state,
          Event.preStep step t state :: Event.stepperCall p.1 t p.2 ::
            Event.postStep (step + 1) (t + p.2) s2 :: r.trace⟩
      else ⟨step, t, state, []⟩ := by
  by_cases h : t < t_final ∧ step < step_max
  · have hs : step_max - step = (step_max - (step + 1)) + 1 := by omega
    rw [if_pos h, driverLoop, hs, driverLoopAux, if_pos h]
    rfl
  · rw [if_neg h, driverLoop]
    rcases Nat.eq_zero_or_pos (step_max - step) with hz | hp
    · rw [hz, driverLoopAux]
    · obtain ⟨k, hk⟩ : ∃ k, step_max - step = k + 1 :=
        ⟨step_max - step - 1, by omega⟩
      rw [hk, driverLoopAux, if_neg h]

/-- The iteration trace claimed by the specification (§4.1 loop invariant),
written from the words of the spec for comparison with `driverLoop`: while
`time < final_time AND step < max_steps`, each iteration (1) invokes the
pre-step callback with the current (step, time, state), yielding the state
and step size for this iteration, (2) invokes the Timestepper with that
state, the current time, that step size and the RHS evaluator, (3) advances
time by the step size and increments the step counter, (4) invokes the
post-step callback with the updated (step, time, state). -/
def claimedTraceAux {σ : Type} (t_final : ℚ) (step_max : ℕ)
    (prestep : PreStepFn σ) (timestepper : TimestepperFn σ) (rhs : RhsFn σ) :
    ℕ → ℕ → ℚ → σ → List (Event σ)
  | 0, _, _, _ => []
  | fuel + 1, step, t, state =>
    if t < t_final ∧ step < step_max then
      let p := prestep step t state
      let s2 := timestepper p.1 t p.2 rhs
      Event.preStep step t state :: Event.stepperCall p.1 t p.2 ::
        Event.postStep (step + 1) (t + p.2) s2 ::
        claimedTraceAux t_final step_max prestep timestepper rhs
          fuel (step + 1) (t + p.2) s2
    else []

/-- The spec-side trace of a whole run, with the same fuel as `driverLoop`. -/
def claimedTrace {σ : Type} (t_final : ℚ) (step_max : ℕ)
    (prestep : PreStepFn σ) (timestepper : TimestepperFn σ) (rhs : RhsFn σ)
    (step : ℕ) (t : ℚ) (state : σ) : List (Event σ) :=
  claimedTraceAux t_final step_max prestep timestepper rhs
    (step_max - step) step t state

theorem driverLoopAux_trace_eq_claimed {σ : Type} (t_final : ℚ) (step_max : ℕ)
    (prestep : PreStepFn σ) (timestepper : TimestepperFn σ) (rhs : RhsFn σ)
    (fuel : ℕ) : ∀ (step : ℕ) (t : ℚ) (state : σ),
    (driverLoopAux t_final step_max prestep timestepper rhs
      fuel step t state).trace =
    claimedTraceAux t_final step_max prestep timestepper rhs
      fuel step t state := by
  induction fuel with
  | zero => intro step t state; rfl
  | succ fuel ih =>
    intro step t state
    rw [driverLoopAux, claimedTraceAux]
    by_cases h : t < t_final ∧ step < step_max
    · rw [if_pos h, if_pos h]
      exact congrArg _ (congrArg _ (congrArg _ (ih _ _ _)))
    · rw [if_neg h, if_neg h]

theorem driverLoopAux_exit {σ : Type} (t_final : ℚ) (step_max : ℕ)
    (prestep : PreStepFn σ) (timestepper : TimestepperFn σ) (rhs : RhsFn σ)
    (fuel : ℕ) : ∀ (step : ℕ) (t : ℚ) (state : σ), step_max - step ≤ fuel →
    t_final ≤ (driverLoopAux t_final step_max prestep timestepper rhs
      fuel step t state).t ∨
    step_max ≤ (driverLoopAux t_final step_max prestep timestepper rhs
      fuel step t state).step := by
  induction fuel with
  | zero =>
    intro step t state hle
    right
    simpa [driverLoopAux] using by omega
  | succ fuel ih =>
    intro step t state hle
    rw [driverLoopAux]
    by_cases h : t < t_final ∧ step < step_max
    · rw [if_pos h]
      exact ih (step + 1) _ _ (by omega)
    · rw [if_neg h]
      rcases not_and_or.mp h with h1 | h2
      · exact Or.inl (le_of_not_lt h1)
      · exact Or.inr (le_of_not_lt h2)

/-- C1: for every run whose initial (step, time) does not already satisfy the
terminal condition, the driver loop iterates exactly while
`time < final_time AND step < max_steps`, each iteration performing, in
order: (1) pre-step callback on the current (step, time, state) yielding the
state and step size, (2) Timestepper on that state, current time, that step
size and the RHS evaluator, (3) time advanced by the step size and step
incremented by one, (4) post-step callback on the updated (step, time,
state) — captured by the trace coinciding with the spec-side
`claimedTrace` — and on normal exit the final (step, time, state) triple
satisfies `time >= final_time OR step >= max_steps`. -/
theorem driverLoop_follows_spec {σ : Type} (t_final : ℚ) (step_max : ℕ)
    (prestep : PreStepFn σ) (timestepper : TimestepperFn σ) (rhs : RhsFn σ)
    (step : ℕ) (t : ℚ) (state : σ)
    (h : ¬ (t ≥ t_final ∨ step ≥ step_max)) :
    (driverLoop t_final step_max prestep timestepper rhs
      step t state).trace =
      claimedTrace t_final step_max prestep timestepper rhs step t state ∧
    (t_final ≤ (driverLoop t_final step_max prestep timestepper rhs
        step t state).t ∨
      step_max ≤ (driverLoop t_final step_max prestep timestepper rhs
        step t state).step) := by
  refine ⟨driverLoopAux_trace_eq_claimed _ _ _ _ _ _ _ _ _, ?_⟩
  exact driverLoopAux_exit t_final step_max prestep timestepper rhs _ _ _ _
    le_rfl

/-- Witness for C1 at a concrete run: `t_final = 1`, `step_max = 2`, constant
step size 1, identity stepper, starting from step 0 at time 0. -/
theorem driverLoop_follows_spec_witness :
    (¬ ((0:ℚ) ≥ 1 ∨ (0:ℕ) ≥ 2)) ∧
    ((driverLoop 1 2 (fun _ _ s => (s, 1)) (fun s _ _ _ => s) (fun _ s => s)
        0 0 ()).trace =
      claimedTrace 1 2 (fun _ _ s => (s, 1)) (fun s _ _ _ => s)
        (fun _ s => s) 0 0 () ∧
      ((1:ℚ) ≤ (driverLoop 1 2 (fun _ _ s => (s, 1)) (fun s _ _ _ => s)
          (fun _ s => s) 0 0 ()).t ∨
        (2:ℕ) ≤ (driverLoop 1 2 (fun _ _ s => (s, 1)) (fun s _ _ _ => s)
          (fun _ s => s) 0 0 ()).step)) :=
  ⟨by decide,
    driverLoop_follows_spec 1 2 (fun _ _ s => (s, 1)) (fun s _ _ _ => s)
      (fun _ s => s) 0 0 () (by decide)⟩

/-- C2: for every run configuration and initial condition with
`current_t >= t_final` or `current_step >= step_max`, `main` fails
immediately with the initialization error "Nothing to do, loop limits
already met.", performs no loop iterations, and emits no events — in
particular it never invokes the pre-step callback, the Timestepper, or the
post-step callback. -/
theorem driverMain_config_error {σ : Type} (t_final : ℚ) (step_max : ℕ)
    (prestep : PreStepFn σ) (timestepper : TimestepperFn σ) (rhs : RhsFn σ)
    (step : ℕ) (t : ℚ) (state : σ)
    (h : t ≥ t_final ∨ step ≥ step_max) :
    driverMain t_final step_max prestep timestepper rhs step t state =
      ([], Except.error "Nothing to do, loop limits already met.") := by
  rw [driverMain, if_pos h]

/-- Witness for C2: starting at time 5 with `t_final = 1` fails immediately
with the configuration error and an empty event trace. -/
theorem driverMain_config_error_witness :
    ((5:ℚ) ≥ 1 ∨ (0:ℕ) ≥ 10) ∧
    driverMain 1 10 (fun _ _ s => (s, 1)) (fun s _ _ _ => s) (fun _ s => s)
        0 5 () =
      ([], Except.error "Nothing to do, loop limits already met.") :=
  ⟨by decide,
    driverMain_config_error 1 10 (fun _ _ s => (s, 1)) (fun s _ _ _ => s)
      (fun _ s => s) 0 5 () (by decide)⟩

/-- Whether an event is an invocation of the Timestepper. -/
def isStepperCall {σ : Type} : Event σ → Bool
  | Event.stepperCall _ _ _ => true
  | _ => false

/-- Whether an event is an invocation of the post-step callback; each loop
iteration ends with exactly one such invocation, so these count the
iterations of a run. -/
def isPostStep {σ : Type} : Event σ → Bool
  | Event.postStep _ _ _ => true
  | _ => false

/-- Number of Timestepper invocations recorded in a trace. -/
def stepperCalls {σ : Type} (tr : List (Event σ)) : ℕ :=
  (tr.filter isStepperCall).length

/-- Number of loop iterations recorded in a trace (post-step invocations). -/
def iterations {σ : Type} (tr : List (Event σ)) : ℕ :=
  (tr.filter isPostStep).length

theorem driverLoopAux_const_dt {σ : Type} (t_final : ℚ) (step_max : ℕ)
    (dt : ℚ) (timestepper : TimestepperFn σ) (rhs : RhsFn σ) (fuel : ℕ) :
    ∀ (step : ℕ) (t : ℚ) (state : σ),
    (driverLoopAux t_final step_max (fun _ _ s => (s, dt)) timestepper rhs
        fuel step t state).t =
      t + (stepperCalls (driverLoopAux t_final step_max
        (fun _ _ s => (s, dt)) timestepper rhs fuel step t state).trace) * dt ∧
    iterations (driverLoopAux t_final step_max (fun _ _ s => (s, dt))
        timestepper rhs fuel step t state).trace =
      stepperCalls (driverLoopAux t_final step_max (fun _ _ s => (s, dt))
        timestepper rhs fuel step t state).trace ∧
    (driverLoopAux t_final step_max (fun _ _ s => (s, dt)) timestepper rhs
        fuel step t state).step =
      step + stepperCalls (driverLoopAux t_final step_max
        (fun _ _ s => (s, dt)) timestepper rhs fuel step t state).trace := by
  induction fuel with
  | zero =>
    intro step t state
    refine ⟨?_, rfl, rfl⟩
    simp [driverLoopAux, stepperCalls]
  | succ fuel ih =>
    intro step t state
    rw [driverLoopAux]
    by_cases h : t < t_final ∧ step < step_max
    · rw [if_pos h]
      obtain ⟨h1, h2, h3⟩ := ih (step + 1) (t + dt) (timestepper state t dt rhs)
      refine ⟨?_, ?_, ?_⟩
      · show _ = t + (stepperCalls (Event.preStep step t state ::
          Event.stepperCall state t dt ::
          Event.postStep (step + 1) (t + dt) _ :: _)) * dt
        rw [show stepperCalls (Event.preStep step t state ::
            Event.stepperCall state t dt ::
            Event.postStep (step + 1) (t + dt)
              (timestepper state t dt rhs) ::
            (driverLoopAux t_final step_max (fun _ _ s => (s, dt))
              timestepper rhs fuel (step + 1) (t + dt)
              (timestepper state t dt rhs)).trace) =
          stepperCalls (driverLoopAux t_final step_max (fun _ _ s => (s, dt))
            timestepper rhs fuel (step + 1) (t + dt)
            (timestepper state t dt rhs)).trace + 1 from by
          simp [stepperCalls, isStepperCall]]
        rw [h1]
        push_cast
        ring
      · show iterations (Event.preStep step t state ::
            Event.stepperCall state t dt :: Event.postStep _ _ _ :: _) = _
        simp only [iterations, stepperCalls, List.filter, isPostStep,
          isStepperCall, List.length_cons] at h2 ⊢
        omega
      · show _ = step + stepperCalls (Event.preStep step t state ::
          Event.stepperCall state t dt :: Event.postStep _ _ _ :: _)
        simp only [stepperCalls, List.filter, isPostStep, isStepperCall,
          List.length_cons] at h3 ⊢
        omega
    · rw [if_neg h]
      refine ⟨?_, rfl, rfl⟩
      simp [stepperCalls]

theorem driverLoop_exact_iterations {σ : Type} (step_max : ℕ) (dt : ℚ)
    (hdt : 0 < dt) (timestepper : TimestepperFn σ) (rhs : RhsFn σ) (n : ℕ) :
    ∀ (step0 : ℕ) (t0 t_final : ℚ) (state : σ),
    t_final = t0 + n * dt → step0 + n ≤ step_max →
    (driverLoop t_final step_max (fun _ _ s => (s, dt)) timestepper rhs
        step0 t0 state).step = step0 + n ∧
    (driverLoop t_final step_max (fun _ _ s => (s, dt)) timestepper rhs
        step0 t0 state).t = t0 + n * dt ∧
    stepperCalls (driverLoop t_final step_max (fun _ _ s => (s, dt))
        timestepper rhs step0 t0 state).trace = n := by
  induction n with
  | zero =>
    intro step0 t0 t_final state hfin hstep
    have hguard : ¬ (t0 < t_final ∧ step0 < step_max) := by
      intro hc
      rw [hfin] at hc
      simp at hc
    rw [driverLoop_unfold, if_neg hguard]
    refine ⟨rfl, by simp [hfin], rfl⟩
  | succ n ih =>
    intro step0 t0 t_final state hfin hstep
    have ht : t0 < t_final := by
      rw [hfin]
      have : (0:ℚ) < (n + 1 : ℕ) * dt := by
        apply mul_pos _ hdt
        push_cast
        positivity
      linarith
    have hguard : t0 < t_final ∧ step0 < step_max := ⟨ht, by omega⟩
    rw [driverLoop_unfold, if_pos hguard]
    obtain ⟨h1, h2, h3⟩ := ih (step0 + 1) (t0 + dt) t_final
      (timestepper state t0 dt rhs)
      (by rw [hfin]; push_cast; ring) (by omega)
    refine ⟨?_, ?_, ?_⟩
    · show (driverLoop t_final step_max (fun _ _ s => (s, dt)) timestepper
        rhs (step0 + 1) (t0 + dt) (timestepper state t0 dt rhs)).step = _
      omega
    · show (driverLoop t_final step_max (fun _ _ s => (s, dt)) timestepper
        rhs (step0 + 1) (t0 + dt) (timestepper state t0 dt rhs)).t = _
      rw [h2]
      push_cast
      ring
    · show stepperCalls (Event.preStep step0 t0 state ::
        Event.stepperCall state t0 dt :: Event.postStep _ _ _ :: _) = n + 1
      simp only [stepperCalls, List.filter, isStepperCall,
        List.length_cons] at h3 ⊢
      omega

/-- C6: with a fixed step size `dt > 0`, a run of the driver loop that
executes exactly `n` iterations ends at `final_time = initial_time + n * dt`
(exactly, in the rational-arithmetic model, hence within floating-point
tolerance) and invokes the Timestepper exactly `n` times; in particular the
scenario `initial_time = 0`, `final_time = 1`, `dt = 1/1000` runs exactly
1000 iterations, ends at step index 1000, and its final time is 1 within
`1e-16`. -/
theorem driverLoop_fixed_dt_time {σ : Type} (t_final : ℚ) (step_max : ℕ)
    (dt : ℚ) (hdt : 0 < dt) (timestepper : TimestepperFn σ) (rhs : RhsFn σ)
    (step0 : ℕ) (t0 : ℚ) (state : σ) (n : ℕ)
    (hn : iterations (driverLoop t_final step_max (fun _ _ s => (s, dt))
      timestepper rhs step0 t0 state).trace = n) :
    (driverLoop t_final step_max (fun _ _ s => (s, dt)) timestepper rhs
        step0 t0 state).t = t0 + n * dt ∧
    stepperCalls (driverLoop t_final step_max (fun _ _ s => (s, dt))
        timestepper rhs step0 t0 state).trace = n ∧
    ((driverLoop 1 1000000 (fun _ _ s => (s, 1/1000)) timestepper rhs
        0 0 state).step = 1000 ∧
      |(driverLoop 1 1000000 (fun _ _ s => (s, 1/1000)) timestepper rhs
        0 0 state).t - 1| ≤ 1 / 10 ^ 16 ∧
      stepperCalls (driverLoop 1 1000000 (fun _ _ s => (s, 1/1000))
        timestepper rhs 0 0 state).trace = 1000) := by
  obtain ⟨h1, h2, h3⟩ := driverLoopAux_const_dt t_final step_max dt
    timestepper rhs (step_max - step0) step0 t0 state
  have h2' : iterations (driverLoop t_final step_max (fun _ _ s => (s, dt))
      timestepper rhs step0 t0 state).trace =
      stepperCalls (driverLoop t_final step_max (fun _ _ s => (s, dt))
        timestepper rhs step0 t0 state).trace := h2
  have hcalls : stepperCalls (driverLoop t_final step_max
      (fun _ _ s => (s, dt)) timestepper rhs step0 t0 state).trace = n := by
    rw [← h2']
    exact hn
  obtain ⟨g1, g2, g3⟩ := driverLoop_exact_iterations 1000000 (1/1000)
    (by norm_num) timestepper rhs 1000 0 0 1 state (by push_cast; norm_num)
    (by omega)
  refine ⟨?_, hcalls, g1, ?_, g3⟩
  · rw [show (driverLoop t_final step_max (fun _ _ s => (s, dt)) timestepper
      rhs step0 t0 state).t = t0 + (stepperCalls (driverLoop t_final
      step_max (fun _ _ s => (s, dt)) timestepper rhs step0 t0
      state).trace) * dt from h1, hcalls]
  · rw [g2]
    norm_num

/-- Witness for C6 at a concrete run: `dt = 1`, `t_final = 2`,
`step_max = 5`, which iterates exactly twice. -/
theorem driverLoop_fixed_dt_time_witness :
    ((0:ℚ) < 1 ∧
      iterations (driverLoop 2 5 (fun _ _ s => (s, 1)) (fun s _ _ _ => s)
        (fun _ s => s) 0 0 ()).trace = 2) ∧
    ((driverLoop 2 5 (fun _ _ s => (s, 1)) (fun s _ _ _ => s)
        (fun _ s => s) 0 0 ()).t = 0 + (2:ℕ) * 1 ∧
      stepperCalls (driverLoop 2 5 (fun _ _ s => (s, 1)) (fun s _ _ _ => s)
        (fun _ s => s) 0 0 ()).trace = 2 ∧
      ((driverLoop 1 1000000 (fun _ _ s => (s, 1/1000)) (fun s _ _ _ => s)
          (fun _ s => s) 0 0 ()).step = 1000 ∧
        |(driverLoop 1 1000000 (fun _ _ s => (s, 1/1000)) (fun s _ _ _ => s)
          (fun _ s => s) 0 0 ()).t - 1| ≤ 1 / 10 ^ 16 ∧
        stepperCalls (driverLoop 1 1000000 (fun _ _ s => (s, 1/1000))
          (fun s _ _ _ => s) (fun _ s => s) 0 0 ()).trace = 1000)) :=
  ⟨⟨by norm_num,
      by norm_num [driverLoop, driverLoopAux, iterations, isPostStep]⟩,
    driverLoop_fixed_dt_time 2 5 1 (by norm_num) (fun s _ _ _ => s)
      (fun _ s => s) 0 0 () 2
      (by norm_num [driverLoop, driverLoopAux, iterations, isPostStep])⟩

/-- Modelled from the spec: `check_step` is imported from
`mirgecom.simutil`, which is not among the sources.  Spec §4.2 defines it:
output is true iff `step modulo interval == 0`, with the edge case that a
zero or negative interval is treated as "never due" rather than causing a
division fault. -/
def check_step (step : ℕ) (interval : ℤ) : Bool :=
  if interval ≤ 0 then false
  else decide ((step : ℤ) % interval = 0)

/-- The action flags computed at the top of `my_pre_step` in
`examples/scalar-lump-mpi.py` (lines 281-289): the four `check_step`
interval tests, then `if step == rst_step: do_viz = False;
do_restart = False`.  Parametrized over the step-check function `chk`
(`check_step` imported from `mirgecom.simutil` in the source).  The result
is `(do_viz, do_restart, do_health, do_status)`. -/
def preStepFlags (chk : ℕ → ℤ → Bool) (rst_step : Option ℕ)
    (nviz nrestart nhealth nstatus : ℤ) (step : ℕ) :
    Bool × Bool × Bool × Bool :=
  let do_viz := chk step nviz
  let do_restart := chk step nrestart
  let do_health := chk step nhealth
  let do_status := chk step nstatus
  if some step = rst_step then (false, false, do_health, do_status)
  else (do_viz, do_restart, do_health, do_status)

/-- `my_graceful_exit` in `examples/scalar-lump-mpi.py` (lines 206-216):
write a visualization file if `do_viz`, a restart file if `do_restart`,
then raise `RuntimeError(message)` (defaulting to "Fatal simulation errors
detected." when no message is given).  Modelled as the write events emitted
and the message raised. -/
def my_graceful_exit {σ : Type} (step : ℕ) (do_viz do_restart : Bool)
    (message : Option String) : List (Event σ) × String :=
  ((if do_viz then [Event.writeViz step] else []) ++
    (if do_restart then [Event.writeRestart step] else []),
    message.getD "Fatal simulation errors detected.")

/-- `my_pre_step` in `examples/scalar-lump-mpi.py` (lines 273-329), for one
worker at one step.  Flags come from `preStepFlags`; the allreduced health
flag `aggHealth` is a parameter (`comm.allreduce(my_health_check(...),
op=MPI.LOR)`, whose local predicate is external CFD code).  In code order:
the health check (accumulating `pre_step_errors`), the restart write, the
visualization write, the status report, and finally `my_graceful_exit` with
`do_viz=(not do_viz), do_restart=(not do_restart)` when `pre_step_errors`
is set.  Result: the events performed and either the returned
`(state, dt)` or the `RuntimeError` message raised. -/
def my_pre_step {σ : Type} (chk : ℕ → ℤ → Bool) (rst_step : Option ℕ)
    (nviz nrestart nhealth nstatus : ℤ) (step : ℕ) (t dt : ℚ) (state : σ)
    (aggHealth : Bool) : List (Event σ) × Except String (σ × ℚ) :=
  let f := preStepFlags chk rst_step nviz nrestart nhealth nstatus step
  let do_viz := f.1
  let do_restart := f.2.1
  let do_health := f.2.2.1
  let do_status := f.2.2.2
  let pre_step_errors := do_health && aggHealth
  let ev :=
    (if do_health then [Event.healthCheck step aggHealth] else []) ++
    (if do_restart then [Event.writeRestart step] else []) ++
    (if do_viz then [Event.writeViz step] else []) ++
    (if do_status then [Event.statusReport step] else [])
  if pre_step_errors then
    let g := my_graceful_exit (σ := σ) step (!do_viz) (!do_restart)
      (some "Error detected at prestep, exiting.")
    (ev ++ g.1, Except.error g.2)
  else (ev, Except.ok (state, dt))

/-- The logical-OR collective reduction
`comm.allreduce(health_errors, op=MPI.LOR)`: every worker receives the OR
of the local flags of all workers (MPI is an external collaborator; OR semantics
per spec §4.3). -/
def allreduceLOR (localErrors : List Bool) : Bool := localErrors.any id

/-- One distributed pre-step: every worker (a pair of its local state and
its local health-check result) runs `my_pre_step` at the same step, all
sharing the aggregated flag obtained by OR-reducing the local results. -/
def distributedPreStep {σ : Type} (chk : ℕ → ℤ → Bool)
    (rst_step : Option ℕ) (nviz nrestart nhealth nstatus : ℤ) (step : ℕ)
    (t dt : ℚ) (workers : List (σ × Bool)) :
    List (List (Event σ) × Except String (σ × ℚ)) :=
  workers.map (fun w =>
    my_pre_step chk rst_step nviz nrestart nhealth nstatus step t dt w.1
      (allreduceLOR (workers.map Prod.snd)))

/-- C3: for positive intervals the Step Policy returns true iff
`step % interval == 0`, so for every `k > 0` it fires exactly on the steps
`{0, k, 2k, ...}`; a zero or negative interval is never due (and
`check_step` is total, so no division fault occurs). -/
theorem check_step_policy (step : ℕ) (interval : ℤ) :
    (0 < interval →
      (check_step step interval = true ↔ (step : ℤ) % interval = 0)) ∧
    (interval ≤ 0 → check_step step interval = false) ∧
    (0 < interval →
      (check_step step interval = true ↔
        ∃ m : ℕ, (step : ℤ) = m * interval)) := by
  refine ⟨?_, ?_, ?_⟩
  · intro h
    simp [check_step, not_le.mpr h]
  · intro h
    simp [check_step, h]
  · intro h
    rw [check_step, if_neg (not_le.mpr h)]
    simp only [decide_eq_true_eq]
    constructor
    · intro hmod
      obtain ⟨c, hc⟩ := Int.dvd_of_emod_eq_zero hmod
      have hc0 : 0 ≤ c := by
        by_contra hneg
        push_neg at hneg
        have hlt : interval * c < 0 := mul_neg_of_pos_of_neg h hneg
        have h0 : (0:ℤ) ≤ (step : ℤ) := Int.natCast_nonneg step
        rw [hc] at h0
        linarith
      refine ⟨c.toNat, ?_⟩
      rw [hc, Int.toNat_of_nonneg hc0]
      ring
    · rintro ⟨m, hm⟩
      refine Int.emod_eq_zero_of_dvd ⟨m, ?_⟩
      rw [hm]
      ring

/-- Witness for C3: interval 3 fires at step 6, and interval -3 is never
due. -/
theorem check_step_policy_witness :
    ((-3:ℤ) ≤ 0 ∧ check_step 6 (-3) = false) ∧
    ((0:ℤ) < 3 ∧
      (check_step 6 3 = true ↔ ∃ m : ℕ, (6:ℤ) = m * 3)) :=
  ⟨⟨by decide, (check_step_policy 6 (-3)).2.1 (by decide)⟩,
    ⟨by decide, (check_step_policy 6 3).2.2 (by decide)⟩⟩

/-- C4: on the exact step `s` at which a run resumes from a restart, the
pre-step policy suppresses both the visualization write and the restart
write even when the interval arithmetic would fire; on every step other
than `s` the interval checks alone decide all the flags. -/
theorem preStepFlags_resume_suppression (chk : ℕ → ℤ → Bool) (s : ℕ)
    (nviz nrestart nhealth nstatus : ℤ) :
    preStepFlags chk (some s) nviz nrestart nhealth nstatus s =
      (false, false, chk s nhealth, chk s nstatus) ∧
    ∀ step : ℕ, step ≠ s →
      preStepFlags chk (some s) nviz nrestart nhealth nstatus step =
        (chk step nviz, chk step nrestart, chk step nhealth,
          chk step nstatus) := by
  constructor
  · simp [preStepFlags]
  · intro step hne
    simp [preStepFlags, hne]

/-- Witness for C4: resume at step 4 with every interval equal to 2: step 4
is suppressed although `4 % 2 == 0`, step 5 is decided by the intervals. -/
theorem preStepFlags_resume_suppression_witness :
    (preStepFlags check_step (some 4) 2 2 2 2 4 =
      (false, false, check_step 4 2, check_step 4 2)) ∧
    ((5:ℕ) ≠ 4 ∧
      preStepFlags check_step (some 4) 2 2 2 2 5 =
        (check_step 5 2, check_step 5 2, check_step 5 2,
          check_step 5 2)) :=
  ⟨(preStepFlags_resume_suppression check_step 4 2 2 2 2).1,
    by decide,
    (preStepFlags_resume_suppression check_step 4 2 2 2 2).2 5 (by decide)⟩

theorem preStepFlags_health (chk : ℕ → ℤ → Bool) (rst_step : Option ℕ)
    (nviz nrestart nhealth nstatus : ℤ) (step : ℕ) :
    (preStepFlags chk rst_step nviz nrestart nhealth nstatus step).2.2.1 =
      chk step nhealth := by
  rw [preStepFlags]
  split <;> rfl

theorem my_pre_step_error_checkpoint {σ : Type} (chk : ℕ → ℤ → Bool)
    (rst_step : Option ℕ) (nviz nrestart nhealth nstatus : ℤ) (step : ℕ)
    (t dt : ℚ) (state : σ) (hh : chk step nhealth = true) :
    Event.healthCheck step true ∈ (my_pre_step chk rst_step nviz nrestart
      nhealth nstatus step t dt state true).1 ∧
    Event.writeViz step ∈ (my_pre_step chk rst_step nviz nrestart nhealth
      nstatus step t dt state true).1 ∧
    Event.writeRestart step ∈ (my_pre_step chk rst_step nviz nrestart
      nhealth nstatus step t dt state true).1 ∧
    (my_pre_step chk rst_step nviz nrestart nhealth nstatus step t dt state
      true).2 = Except.error "Error detected at prestep, exiting." := by
  have hdh := preStepFlags_health chk rst_step nviz nrestart nhealth
    nstatus step
  rw [hh] at hdh
  cases hv : (preStepFlags chk rst_step nviz nrestart nhealth nstatus
      step).1 <;>
    cases hr : (preStepFlags chk rst_step nviz nrestart nhealth nstatus
      step).2.1 <;>
    cases hst : (preStepFlags chk rst_step nviz nrestart nhealth nstatus
      step).2.2.2 <;>
    simp [my_pre_step, my_graceful_exit, hdh, hv, hr, hst]

/-- C5: on a health-check step of a distributed run, if the local health
check is true on at least one worker, then after the logical-OR reduction
every worker observes a true aggregated flag, and every worker performs an
emergency checkpoint — the visualization write and the restart write for
that step are among its events — before the RuntimeError of the graceful
exit is raised. -/
theorem distributed_health_abort {σ : Type} (chk : ℕ → ℤ → Bool)
    (rst_step : Option ℕ) (nviz nrestart nhealth nstatus : ℤ) (step : ℕ)
    (t dt : ℚ) (workers : List (σ × Bool))
    (hh : chk step nhealth = true)
    (hw : ∃ w ∈ workers, w.2 = true) :
    allreduceLOR (workers.map Prod.snd) = true ∧
    ∀ r ∈ distributedPreStep chk rst_step nviz nrestart nhealth nstatus
        step t dt workers,
      Event.healthCheck step true ∈ r.1 ∧
      Event.writeViz step ∈ r.1 ∧
      Event.writeRestart step ∈ r.1 ∧
      r.2 = Except.error "Error detected at prestep, exiting." := by
  have hagg : allreduceLOR (workers.map Prod.snd) = true := by
    obtain ⟨w, hwmem, hwtrue⟩ := hw
    simp only [allreduceLOR, List.any_eq_true, List.mem_map, id]
    exact ⟨w.2, ⟨w, hwmem, rfl⟩, hwtrue⟩
  refine ⟨hagg, ?_⟩
  intro r hr
  rw [distributedPreStep] at hr
  obtain ⟨w, _, hweq⟩ := List.mem_map.mp hr
  rw [← hweq, hagg]
  exact my_pre_step_error_checkpoint chk rst_step nviz nrestart nhealth
    nstatus step t dt w.1 hh

/-- Witness for C5: two workers, the second with a failing local health
check, every interval 1, at step 3. -/
theorem distributed_health_abort_witness :
    (check_step 3 1 = true ∧
      ∃ w ∈ [((), false), ((), true)], w.2 = true) ∧
    (allreduceLOR ([((), false), ((), true)].map Prod.snd) = true ∧
      ∀ r ∈ distributedPreStep check_step none 1 1 1 1 3 0 1
          [((), false), ((), true)],
        Event.healthCheck 3 true ∈ r.1 ∧
        Event.writeViz 3 ∈ r.1 ∧
        Event.writeRestart 3 ∈ r.1 ∧
        r.2 = Except.error "Error detected at prestep, exiting.") :=
  ⟨⟨by decide, by decide⟩,
    distributed_health_abort check_step none 1 1 1 1 3 0 1
      [((), false), ((), true)] (by decide) (by decide)⟩

/-- C9: at the exact resume step `s`, only the visualization and restart
writes are suppressed — the health-check and status flags still follow
their interval checks — and with a firing health interval and a true
aggregated health flag, the pre-step at step `s` still raises the abort. -/
theorem resume_step_still_health_checks {σ : Type} (chk : ℕ → ℤ → Bool)
    (s : ℕ) (nviz nrestart nhealth nstatus : ℤ) (t dt : ℚ) (state : σ)
    (hh : chk s nhealth = true) :
    (preStepFlags chk (some s) nviz nrestart nhealth nstatus s).1 =
      false ∧
    (preStepFlags chk (some s) nviz nrestart nhealth nstatus s).2.1 =
      false ∧
    (preStepFlags chk (some s) nviz nrestart nhealth nstatus s).2.2.1 =
      chk s nhealth ∧
    (preStepFlags chk (some s) nviz nrestart nhealth nstatus s).2.2.2 =
      chk s nstatus ∧
    Event.healthCheck s true ∈ (my_pre_step chk (some s) nviz nrestart
      nhealth nstatus s t dt state true).1 ∧
    (my_pre_step chk (some s) nviz nrestart nhealth nstatus s t dt state
      true).2 = Except.error "Error detected at prestep, exiting." := by
  obtain ⟨h1, h2, h3, h4⟩ := my_pre_step_error_checkpoint chk (some s) nviz
    nrestart nhealth nstatus s t dt state hh
  refine ⟨?_, ?_, ?_, ?_, h1, h4⟩ <;> simp [preStepFlags]

/-- Witness for C9: resume step 7 with every interval 1 and a true
aggregated health flag. -/
theorem resume_step_still_health_checks_witness :
    check_step 7 1 = true ∧
    ((preStepFlags check_step (some 7) 1 1 1 1 7).1 = false ∧
      (preStepFlags check_step (some 7) 1 1 1 1 7).2.1 = false ∧
      (preStepFlags check_step (some 7) 1 1 1 1 7).2.2.1 =
        check_step 7 1 ∧
      (preStepFlags check_step (some 7) 1 1 1 1 7).2.2.2 =
        check_step 7 1 ∧
      Event.healthCheck 7 true ∈ (my_pre_step check_step (some 7) 1 1 1 1 7
        0 1 () true).1 ∧
      (my_pre_step check_step (some 7) 1 1 1 1 7 0 1 () true).2 =
        Except.error "Error detected at prestep, exiting.") :=
  ⟨by decide,
    resume_step_still_health_checks check_step 7 1 1 1 1 0 1 () (by decide)⟩

/-- `finish_tol = 1e-16` at line 342 of `examples/scalar-lump-mpi.py`. -/
def finish_tol : ℚ := 1 / 10 ^ 16

/-- The post-loop non-convergence check of `main` in
`examples/scalar-lump-mpi.py` (lines 342-346): when
`np.abs(current_t - t_final) > finish_tol`, call `my_graceful_exit` with
`do_viz=True, do_restart=True` and message "Simulation timestepping did
not complete.".  Result: the events written and the outcome. -/
def scalarLumpFinishCheck {σ : Type} (step : ℕ) (t t_final : ℚ) :
    List (Event σ) × Except String Unit :=
  if |t - t_final| > finish_tol then
    let g := my_graceful_exit (σ := σ) step true true
      (some "Simulation timestepping did not complete.")
    (g.1, Except.error g.2)
  else ([], Except.ok ())

/-- The post-loop check of `main` in `examples/pulse.py` (lines 143-144):
`if current_t - t_final < 0: raise ValueError("Simulation exited
abnormally")`. -/
def pulseFinishCheck (t t_final : ℚ) : Except String Unit :=
  if t - t_final < 0 then Except.error "Simulation exited abnormally"
  else Except.ok ()

/-- Counterexample to C7: `examples/pulse.py` raises only on undershoot and
uses no tolerance — with achieved time 1 and configured final time 0 the
achieved time is not within the tolerance of the final time, yet the pulse
driver raises no error. -/
theorem pulse_overshoot_not_fatal :
    |(1:ℚ) - 0| > finish_tol ∧ pulseFinishCheck 1 0 = Except.ok () := by
  constructor
  · rw [finish_tol]
    norm_num
  · rw [pulseFinishCheck, if_neg]
    norm_num

/-- C7 (amended): after a normal loop exit, `scalar-lump-mpi.py` raises the
fatal non-convergence error "Simulation timestepping did not complete."
iff the achieved time differs from the configured final time by more than
the tolerance `finish_tol = 1e-16`; `pulse.py` instead raises
"Simulation exited abnormally" iff the achieved time is strictly below the
final time — a one-sided comparison with no tolerance. -/
theorem finish_checks (step : ℕ) (t t_final : ℚ) :
    ((scalarLumpFinishCheck (σ := Unit) step t t_final).2 =
        Except.error "Simulation timestepping did not complete." ↔
      |t - t_final| > finish_tol) ∧
    ((scalarLumpFinishCheck (σ := Unit) step t t_final).2 =
        Except.ok () ↔ |t - t_final| ≤ finish_tol) ∧
    (pulseFinishCheck t t_final =
        Except.error "Simulation exited abnormally" ↔ t < t_final) := by
  refine ⟨?_, ?_, ?_⟩
  · rw [scalarLumpFinishCheck]
    split_ifs with h1
    · simp [my_graceful_exit, h1]
    · exact ⟨fun hc => absurd hc (by simp), fun hc => absurd hc h1⟩
  · rw [scalarLumpFinishCheck]
    split_ifs with h1
    · exact ⟨fun hc => absurd hc (by simp [my_graceful_exit]),
        fun hc => absurd h1 (not_lt.mpr hc)⟩
    · exact iff_of_true rfl (le_of_not_lt h1)
  · rw [pulseFinishCheck]
    split_ifs with h1
    · rw [sub_neg] at h1
      simp [h1]
    · rw [sub_neg] at h1
      simp [h1]

/-- Witness for the amended C7 theorem at step 0, achieved time 1, final
time 1. -/
theorem finish_checks_witness :
    ((scalarLumpFinishCheck (σ := Unit) 0 1 1).2 =
        Except.error "Simulation timestepping did not complete." ↔
      |(1:ℚ) - 1| > finish_tol) ∧
    ((scalarLumpFinishCheck (σ := Unit) 0 1 1).2 =
        Except.ok () ↔ |(1:ℚ) - 1| ≤ finish_tol) ∧
    (pulseFinishCheck 1 1 =
        Except.error "Simulation exited abnormally" ↔ (1:ℚ) < 1) :=
  finish_checks 0 1 1

/-- Counterexample to C8: the configuration-error fatality of
`generic-parallel-driver.py` does not attempt to persist anything —
starting at step 2 with `step_max = 1` the run fails immediately with
"Nothing to do, loop limits already met." and an empty event list, i.e. no
visualization or restart write precedes the fatal condition. -/
theorem config_error_no_persistence :
    driverMain 1 1 (fun _ _ s => (s, 1)) (fun s _ _ _ => s) (fun _ s => s)
        2 0 () =
      ([], Except.error "Nothing to do, loop limits already met.") := by
  rw [driverMain, if_pos (Or.inr (by norm_num : (2:ℕ) ≥ 1))]

/-- C8 (amended): the two in- and post-loop fatal conditions persist the
current state before propagating — a health-check fatality writes both the
visualization and the restart file for the step before its RuntimeError,
and the non-convergence fatality writes both before its RuntimeError — but
the pre-loop configuration error raises immediately, emitting no events
and persisting nothing. -/
theorem fatal_conditions_persistence {σ : Type} (chk : ℕ → ℤ → Bool)
    (rst_step : Option ℕ) (nviz nrestart nhealth nstatus : ℤ) (step : ℕ)
    (t dt tf : ℚ) (state : σ)
    (hh : chk step nhealth = true) (ht : |t - tf| > finish_tol) :
    (Event.writeViz step ∈ (my_pre_step chk rst_step nviz nrestart nhealth
        nstatus step t dt state true).1 ∧
      Event.writeRestart step ∈ (my_pre_step chk rst_step nviz nrestart
        nhealth nstatus step t dt state true).1 ∧
      (my_pre_step chk rst_step nviz nrestart nhealth nstatus step t dt
        state true).2 =
        Except.error "Error detected at prestep, exiting.") ∧
    (scalarLumpFinishCheck (σ := σ) step t tf =
      ([Event.writeViz step, Event.writeRestart step],
        Except.error "Simulation timestepping did not complete.")) ∧
    (∀ (t_final : ℚ) (step_max : ℕ) (prestep : PreStepFn σ)
        (timestepper : TimestepperFn σ) (rhs : RhsFn σ) (step0 : ℕ)
        (t0 : ℚ) (s0 : σ), t0 ≥ t_final ∨ step0 ≥ step_max →
      driverMain t_final step_max prestep timestepper rhs step0 t0 s0 =
        ([], Except.error "Nothing to do, loop limits already met.")) := by
  obtain ⟨_, h2, h3, h4⟩ := my_pre_step_error_checkpoint chk rst_step nviz
    nrestart nhealth nstatus step t dt state hh
  refine ⟨⟨h2, h3, h4⟩, ?_, ?_⟩
  · rw [scalarLumpFinishCheck, if_pos ht]
    rfl
  · intro t_final step_max prestep timestepper rhs step0 t0 s0 h
    rw [driverMain, if_pos h]

/-- Witness for the amended C8 theorem: every interval 1 at step 2, achieved
time 1 against final time 0, and a config-error run starting at time 5
with final time 1. -/
theorem fatal_conditions_persistence_witness :
    (check_step 2 1 = true ∧ |(1:ℚ) - 0| > finish_tol) ∧
    ((Event.writeViz 2 ∈ (my_pre_step check_step none 1 1 1 1 2 1 1 ()
        true).1 ∧
      Event.writeRestart 2 ∈ (my_pre_step check_step none 1 1 1 1 2 1 1 ()
        true).1 ∧
      (my_pre_step check_step none 1 1 1 1 2 1 1 () true).2 =
        Except.error "Error detected at prestep, exiting.") ∧
    (scalarLumpFinishCheck (σ := Unit) 2 1 0 =
      ([Event.writeViz 2, Event.writeRestart 2],
        Except.error "Simulation timestepping did not complete.")) ∧
    (∀ (t_final : ℚ) (step_max : ℕ) (prestep : PreStepFn Unit)
        (timestepper : TimestepperFn Unit) (rhs : RhsFn Unit) (step0 : ℕ)
        (t0 : ℚ) (s0 : Unit), t0 ≥ t_final ∨ step0 ≥ step_max →
      driverMain t_final step_max prestep timestepper rhs step0 t0 s0 =
        ([], Except.error "Nothing to do, loop limits already met."))) :=
  ⟨⟨by decide, by rw [finish_tol]; norm_num⟩,
    fatal_conditions_persistence check_step none 1 1 1 1 2 1 1 0 ()
      (by decide) (by rw [finish_tol]; norm_num)⟩

/-- One field of `red_state - blue_state` in `mirgecom/error.py`: NumPy
object-array subtraction is elementwise. -/
def fieldSub (a b : List ℚ) : List ℚ := List.zipWith (fun x y => x - y) a b

/-- `np.max(np.abs(xs))` over the entries of one field, as `compare_states`
computes per field (fields are nonempty in every run; on the empty list
this model returns 0). -/
def npMaxAbs (xs : List ℚ) : ℚ := (xs.map (fun x => |x|)).foldr max 0

/-- `compare_states` from `mirgecom/error.py` (lines 30-34):
`resid = red_state - blue_state`, then one value per field,
`np.max(np.abs(resid[i]))`.  A state is a list of fields, each field a
list of rational entries. -/
def compare_states (red_state blue_state : List (List ℚ)) : List ℚ :=
  (List.zipWith fieldSub red_state blue_state).map npMaxAbs

theorem compare_states_getD (red blue : List (List ℚ)) :
    ∀ i : ℕ, i < red.length → i < blue.length →
    (compare_states red blue).getD i 0 =
      npMaxAbs (fieldSub (red.getD i []) (blue.getD i [])) := by
  induction red generalizing blue with
  | nil => intro i h1 h2; simp at h1
  | cons a as ih =>
    intro i h1 h2
    cases blue with
    | nil => simp at h2
    | cons b bs =>
      cases i with
      | zero => rfl
      | succ n =>
        exact ih bs n (by simpa using h1) (by simpa using h2)

theorem npMaxAbs_nonneg (xs : List ℚ) : 0 ≤ npMaxAbs xs := by
  induction xs with
  | nil => exact le_refl 0
  | cons x l ih =>
    exact le_trans ih (le_max_right _ _)

theorem npMaxAbs_fieldSub_comm (a b : List ℚ) :
    npMaxAbs (fieldSub a b) = npMaxAbs (fieldSub b a) := by
  rw [npMaxAbs, npMaxAbs]
  have habs : (fieldSub a b).map (fun x => |x|) =
      (fieldSub b a).map (fun x => |x|) := by
    induction a generalizing b with
    | nil => cases b <;> rfl
    | cons x xs ih =>
      cases b with
      | nil => rfl
      | cons y ys =>
        show |x - y| :: (fieldSub xs ys).map (fun z => |z|) =
          |y - x| :: (fieldSub ys xs).map (fun z => |z|)
        rw [abs_sub_comm, ih ys]
  rw [habs]

theorem npMaxAbs_sub_self (f : List ℚ) : npMaxAbs (fieldSub f f) = 0 := by
  induction f with
  | nil => rfl
  | cons x xs ih =>
    show max |x - x| (npMaxAbs (fieldSub xs xs)) = 0
    rw [ih, sub_self, abs_zero, max_self]

/-- C10: for states with the same number of fields, `compare_states`
returns one value per field, the i-th being `np.max(np.abs(...))` of the
i-th field of the elementwise difference; every returned value is
non-negative; `compare_states` is symmetric in its two arguments; and
`compare_states red red` is all zeros (one zero per field). -/
theorem compare_states_spec (red blue : List (List ℚ))
    (h : red.length = blue.length) :
    (compare_states red blue).length = red.length ∧
    (∀ i : ℕ, i < red.length →
      (compare_states red blue).getD i 0 =
        npMaxAbs (fieldSub (red.getD i []) (blue.getD i []))) ∧
    (∀ x ∈ compare_states red blue, 0 ≤ x) ∧
    compare_states red blue = compare_states blue red ∧
    compare_states red red = red.map (fun _ => (0:ℚ)) := by
  refine ⟨?_, ?_, ?_, ?_, ?_⟩
  · rw [compare_states, List.length_map, List.length_zipWith, h,
      min_self]
  · intro i hi
    exact compare_states_getD red blue i hi (h ▸ hi)
  · intro x hx
    obtain ⟨f, _, hfx⟩ := List.mem_map.mp hx
    rw [← hfx]
    exact npMaxAbs_nonneg f
  · clear h
    induction red generalizing blue with
    | nil => cases blue <;> rfl
    | cons a as ih =>
      cases blue with
      | nil => rfl
      | cons b bs =>
        show npMaxAbs (fieldSub a b) :: compare_states as bs =
          npMaxAbs (fieldSub b a) :: compare_states bs as
        rw [npMaxAbs_fieldSub_comm, ih bs]
  · clear h
    induction red with
    | nil => rfl
    | cons a as ih =>
      show npMaxAbs (fieldSub a a) :: compare_states as as = _
      rw [npMaxAbs_sub_self, ih]
      rfl

/-- Witness for C10 on the two-field states `[[1, 2], [3]]` and
`[[0, 4], [3]]`. -/
theorem compare_states_spec_witness :
    ([[1, 2], [3]] : List (List ℚ)).length =
      ([[0, 4], [3]] : List (List ℚ)).length ∧
    ((compare_states [[1, 2], [3]] [[0, 4], [3]]).length = 2 ∧
      (∀ i : ℕ, i < ([[1, 2], [3]] : List (List ℚ)).length →
        (compare_states [[1, 2], [3]] [[0, 4], [3]]).getD i 0 =
          npMaxAbs (fieldSub (([[1, 2], [3]] : List (List ℚ)).getD i [])
            (([[0, 4], [3]] : List (List ℚ)).getD i []))) ∧
      (∀ x ∈ compare_states [[1, 2], [3]] [[0, 4], [3]], 0 ≤ x) ∧
      compare_states [[1, 2], [3]] [[0, 4], [3]] =
        compare_states [[0, 4], [3]] [[1, 2], [3]] ∧
      compare_states [[1, 2], [3]] [[1, 2], [3]] =
        ([[1, 2], [3]] : List (List ℚ)).map (fun _ => (0:ℚ))) :=
  ⟨by decide, compare_states_spec [[1, 2], [3]] [[0, 4], [3]] (by decide)⟩

end Mirgecom
